import Mathlib

/-!
Verification development for the pysshutil repository.

The repository sources available are `sshutil/host.py` and
`tests/test_server.py`.  The connection-cache, session, server and
command modules (`sshutil/cache.py`, `sshutil/conn.py`,
`sshutil/server.py`, `sshutil/cmd.py`) are referenced by those files but
their code is not present; where a property depends on them, the
definitions below are modelled from the specification and say so in
their doc comment.  Everything else is embedded directly from the Python
sources.
-/

/-- Python exception values that the embedded code can raise. -/
inductive PyExc where
  | sockErr (errno : Nat)
  | nameErr
  | typeErr
  | calledProcessError (code : Nat)
  | attrErr
  | neverOpened
  deriving DecidableEq

/-! ## Host layer, embedded from `sshutil/host.py` -/

/-- The single-quote character, used to build shell command strings. -/
def squote : String := String.singleton (Char.ofNat 39)

/-- The double-quote character. -/
def dquote : String := String.singleton (Char.ofNat 34)

/-- Modelled from the spec: `sshutil/cmd.py` is absent from the sources;
its `shell_escape_single_quote` helper (imported by `host.py`) wraps a
command for inclusion in a single-quoted shell string by replacing each
single quote with the quote-break sequence. -/
def shell_escape_single_quote (s : String) : String :=
  s.replace squote (squote ++ dquote ++ squote ++ dquote ++ squote)

/-- State of a `Host` object (`host.py`, `Host.__init__`): the working
directory, whether a remote session class exists (`server` was given),
the cached SFTP client, the cached SFTP session, plus a counter of SFTP
subsystem sessions opened so far (session handles are numbered by this
counter). -/
structure Host where
  cwd : String
  remote : Bool
  sftp : Option Nat
  sftpSession : Option Nat
  opens : Nat
  deriving DecidableEq

/-- `Host.__init__` (`host.py` lines 57-81): `sftp` and `sftp_session`
start as `None`; `session_class` is set only when a server is given. -/
def mkHost (server : Option String) (cwd : String) : Host :=
  { cwd := cwd, remote := server.isSome, sftp := none, sftpSession := none, opens := 0 }

/-- `Host._get_cmd` (`host.py` line 101-102): wraps the command as
a single-quoted `bash -c` invocation that first changes to the working
directory and then runs the escaped command. -/
def get_cmd (h : Host) (c : String) : String :=
  "bash -c " ++ squote ++ "cd " ++ h.cwd ++ " && " ++ shell_escape_single_quote c ++ squote

/-- `Host.run_status_stderr` (`host.py` lines 104-124): runs the wrapped
command and returns `(returncode, stdout, stderr)` without raising.  The
underlying command object is modelled from the spec interface
`runStatusStderr(command) -> (exitCode, stdout, stderr)` as an oracle
`env` from full command strings to result triples, since `sshutil/cmd.py`
is absent from the sources. -/
def run_status_stderr (env : String → Nat × String × String) (h : Host) (c : String) :
    Nat × String × String :=
  env (get_cmd h c)

/-- `Host.run` (`host.py` lines 141-148): returns stdout, raising
`CalledProcessError` on a non-zero exit status.  The raise-on-non-zero
behaviour of the underlying command object is modelled from the spec
(`run(command) -> stdout`, fails on non-zero exit) and from the
`:raises: CalledProcessError` docstring in `host.py`. -/
def run_command (env : String → Nat × String × String) (h : Host) (c : String) :
    Except PyExc String :=
  let r := run_status_stderr env h c
  if r.1 = 0 then Except.ok r.2.1 else Except.error (PyExc.calledProcessError r.1)

/-- `Host._get_sftp` (`host.py` lines 88-99): when no SFTP client is
cached, open one SFTP subsystem session (the session handle is the
current value of the `opens` counter), build the SFTP client from its
channel via the oracle `mk`, cache it and return it; when a client is
already cached return it unchanged.  When `mk` fails, `self.sftp` stays
`None` and the following `self.sftp.chdir` raises an attribute error. -/
def get_sftp (mk : Nat → Option Nat) (h : Host) : Except PyExc (Nat × Host) :=
  match h.sftp with
  | some c => Except.ok (c, h)
  | none =>
    match mk h.opens with
    | none => Except.error PyExc.attrErr
    | some cl =>
      Except.ok (cl, { h with sftpSession := some h.opens, opens := h.opens + 1, sftp := some cl })

/-- `Host.copy_to` (`host.py` lines 150-156): when a remote session
class exists, obtain the SFTP client and put the file (recorded in the
returned transfer list); otherwise the local branch does nothing
(`pass`). -/
def copy_to (mk : Nat → Option Nat) (h : Host) (lf rf : String) :
    Except PyExc (Host × List (String × String)) :=
  if h.remote then
    match get_sftp mk h with
    | Except.error e2 => Except.error e2
    | Except.ok (_, h2) => Except.ok (h2, [(lf, rf)])
  else
    Except.ok (h, [])

/-! ## Port-scan loop, embedded from `tests/test_server.py` lines 105-118 -/

/-- The `errno` value for a port already in use. -/
def EADDRINUSE : Nat := 98

/-- The port-scan loop of `_test_server_close` (`test_server.py` lines
105-118): try each candidate port; a successful server construction
breaks out of the loop; a socket error with errno other than
`EADDRINUSE` is re-raised immediately; on `EADDRINUSE` the loop
advances to the next port remembering the error; when the range is
exhausted the for-else clause re-raises the last-seen error (a name
error if no port was ever tried).  `oracle p` models
`server.SSHServer(..., port=p, ...)`: `ok` with a server handle or
`error` with the socket errno. -/
def scanPorts (oracle : Nat → Except Nat Nat) : List Nat → Option Nat → Except PyExc Nat
  | [], some e2 => Except.error (PyExc.sockErr e2)
  | [], none => Except.error PyExc.nameErr
  | p :: ps, _lastErr =>
    match oracle p with
    | Except.ok srv => Except.ok srv
    | Except.error e2 =>
      if e2 ≠ EADDRINUSE then Except.error (PyExc.sockErr e2)
      else scanPorts oracle ps (some e2)

/-- the contiguous candidate range `range(base, base + n)`. -/
def portRange (base n : Nat) : List Nat :=
  (List.range n).map (fun i => base + i)

/-- `test_port_can_start` (`test_server.py` line 106). -/
def test_port_can_start : Nat := 10000

/-- The whole reservable-port search of `_test_server_close`
(`test_server.py` lines 106-118): a fixed contiguous 100-port candidate
range starting at the base. -/
def find_free_server (oracle : Nat → Except Nat Nat) (base : Nat) : Except PyExc Nat :=
  scanPorts oracle (portRange base 100) none

/-! ## Wait-for-port-open loop, embedded from `tests/test_server.py` lines 86-98 -/

/-- The polling loop of `wait_port_open`: time is modelled in ticks of
the 0.1 s sleep; `r` is the number of ticks left before the deadline
`expire`; each iteration first checks the deadline, then attempts a
connect at the current tick `t` and returns on success, otherwise
sleeps one tick; when the deadline has passed, raises the
never-opened exception. -/
def wait_go (connects : Nat → Bool) : Nat → Nat → Except PyExc Unit
  | _t, 0 => Except.error PyExc.neverOpened
  | t, r + 1 => if connects t then Except.ok () else wait_go connects (t + 1) r

/-- `wait_port_open(addr, timeout)` (`test_server.py` lines 86-98):
poll `connect_ex` with a short sleep until it succeeds or the deadline
(`timeout`, in ticks) elapses, then fail. -/
def wait_port_open (connects : Nat → Bool) (timeout : Nat) : Except PyExc Unit :=
  wait_go connects 0 timeout

/-- The Python call protocol for `wait_port_open`: the function has two
required positional parameters, so a call that omits the `timeout`
argument raises a `TypeError` before the body runs; a call that
supplies it runs the polling loop. -/
def call_wait_port_open (connects : Nat → Bool) (timeoutArg : Option Nat) : Except PyExc Unit :=
  match timeoutArg with
  | none => Except.error PyExc.typeErr
  | some tmo => wait_port_open connects tmo

/-- The argument list at the call sites `test_server.py` line 120 and
line 142: `wait_port_open(("127.0.0.1", port))` supplies no timeout. -/
def serverCloseWaitArg : Option Nat := none

/-! ## Server lifecycle, modelled from the spec -/

/-- Modelled from the spec: `sshutil/server.py` is absent from the
sources.  The state of the operating system visible to Servers: the set
of currently bound ports, the number of live per-connection handler
tasks, and a cumulative count of handlers ever spawned. -/
structure NetWorld where
  bound : List Nat
  handlers : Nat
  spawned : Nat
  deriving DecidableEq

/-- Modelled from the spec (section 4.4): one Server: its bound port,
whether its accept loop is still accepting, and its live handler
count. -/
structure Srv where
  port : Nat
  accepting : Bool
  srvHandlers : Nat
  deriving DecidableEq

/-- Modelled from the spec (section 4.4, Binding): binding a Server on
port `p` fails with `EADDRINUSE` when the port is currently bound,
otherwise the Server becomes listening and the port becomes bound. -/
def bindSrv (w : NetWorld) (p : Nat) : Except PyExc (Srv × NetWorld) :=
  if p ∈ w.bound then Except.error (PyExc.sockErr EADDRINUSE)
  else Except.ok ({ port := p, accepting := true, srvHandlers := 0 },
                  { w with bound := p :: w.bound })

/-- Modelled from the spec (section 4.4, Listening): an accepted,
successfully authenticated connection spawns a per-connection handler;
a denied one does not. -/
def acceptConn (sv : Srv) (w : NetWorld) (allow : Bool) : Srv × NetWorld :=
  if sv.accepting && allow then
    ({ sv with srvHandlers := sv.srvHandlers + 1 },
     { w with handlers := w.handlers + 1, spawned := w.spawned + 1 })
  else (sv, w)

/-- Modelled from the spec: a per-connection handler terminating. -/
def handlerDone (sv : Srv) (w : NetWorld) : Srv × NetWorld :=
  ({ sv with srvHandlers := sv.srvHandlers - 1 }, { w with handlers := w.handlers - 1 })

/-- Modelled from the spec (section 4.4, Closing): `close()` stops the
accept loop from accepting new connections. -/
def closeSrv (sv : Srv) : Srv := { sv with accepting := false }

/-- Modelled from the spec (section 4.4, Closed): `join()` returns only
once the accept loop has stopped and all handlers have exited, and on
return the listening socket is released, freeing the bound port. -/
def joinSrv (sv : Srv) (w : NetWorld) : Option NetWorld :=
  if sv.accepting = false ∧ sv.srvHandlers = 0 then
    some { w with bound := w.bound.erase sv.port }
  else none

/-- One bind → serve one authenticated connection → close → join cycle
on port `p`, as exercised by `_test_server_close`
(`test_server.py` lines 138-153). -/
def serveCycle (w : NetWorld) (p : Nat) : Option NetWorld :=
  match bindSrv w p with
  | Except.error _ => none
  | Except.ok (sv, w1) =>
    let a := acceptConn sv w1 true
    let b := handlerDone a.1 a.2
    joinSrv (closeSrv b.1) b.2

/-- `n` back-to-back bind → serve → close → join cycles on the same
port. -/
def iterCycle (w : NetWorld) (p : Nat) : Nat → Option NetWorld
  | 0 => some w
  | n + 1 => (serveCycle w p).bind (fun w2 => iterCycle w2 p n)

/-! ## Connection cache, modelled from the spec -/

/-- Association-list lookup on `Nat` keys (first match wins). -/
def alook {α : Type} : List (Nat × α) → Nat → Option α
  | [], _ => none
  | (k, v) :: l, q => if q = k then some v else alook l q

/-- Remove every entry with the given key. -/
def adel {α : Type} : List (Nat × α) → Nat → List (Nat × α)
  | [], _ => []
  | (a, b) :: l, k => if a = k then adel l k else (a, b) :: adel l k

/-- Pointwise update of a `Nat`-indexed counter. -/
def fupd (f : Nat → Nat) (i v : Nat) : Nat → Nat :=
  fun j => if j = i then v else f j

/-- Modelled from the spec: `sshutil/cache.py` is absent from the
sources.  The state of an `SSHConnectionCache` (spec sections 3, 4.1,
5): `conns` maps each ConnectionKey to its live Transport id; `pending`
maps a key whose Transport creation is in flight to the creating thread
and the threads waiting on it; `created` counts the Transports ever
created per key; `refc` is the per-Transport reference count; `nextId`
is the provider-assigned handle identity of the next Transport to be
created; `delivered` logs every completed acquire as
(thread, key, transport id); `closedIds` lists the Transports closed by
flushes. -/
structure CacheState where
  conns : List (Nat × Nat)
  pending : List (Nat × (Nat × List Nat))
  created : Nat → Nat
  refc : Nat → Nat
  nextId : Nat
  delivered : List (Nat × Nat × Nat)
  closedIds : List Nat

/-- The empty cache. -/
def initCache : CacheState :=
  { conns := [], pending := [], created := fun _ => 0, refc := fun _ => 0,
    nextId := 0, delivered := [], closedIds := [] }

/-- Modelled from the spec (sections 4.1 and 5): the atomic steps of the
concurrent cache protocol.  All mutation of the shared map and
reference counts happens under the cache lock, so a concurrent
execution is an arbitrary interleaving of these steps.  `hit t k`:
thread `t` acquires an already-cached open Transport.  `start t k`:
thread `t` begins creating the Transport for a key with no cached
Transport and no creation in flight.  `wait t k`: thread `t` arrives
while creation for `k` is in flight and joins the waiters.
`finish t k`: the creation started by `t` completes; the Transport is
stored and handed to the creator and every waiter.  `release i`: a
caller releases one reference on Transport `i`.  `flushAll`: `flush()`,
enabled once no Transport is referenced and no creation is in flight;
it closes every cached Transport and clears the mapping. -/
inductive CAct where
  | hit (t k : Nat)
  | start (t k : Nat)
  | wait (t k : Nat)
  | finish (t k : Nat)
  | release (i : Nat)
  | flushAll
  deriving DecidableEq

/-- The guarded transition function of the cache protocol: `none` means
the step is not enabled in the given state. -/
def cstep : CAct → CacheState → Option CacheState
  | CAct.hit t k, s =>
    match alook s.conns k with
    | some i =>
      some { s with refc := fupd s.refc i (s.refc i + 1),
                    delivered := (t, k, i) :: s.delivered }
    | none => none
  | CAct.start t k, s =>
    match alook s.conns k, alook s.pending k with
    | none, none => some { s with pending := (k, (t, ([] : List Nat))) :: s.pending }
    | _, _ => none
  | CAct.wait t k, s =>
    match alook s.pending k with
    | some cw => some { s with pending := (k, (cw.1, t :: cw.2)) :: adel s.pending k }
    | none => none
  | CAct.finish t k, s =>
    match alook s.pending k with
    | some cw =>
      if cw.1 = t then
        some { s with conns := (k, s.nextId) :: s.conns,
                      pending := adel s.pending k,
                      created := fupd s.created k (s.created k + 1),
                      refc := fupd s.refc s.nextId (cw.2.length + 1),
                      nextId := s.nextId + 1,
                      delivered := (t, k, s.nextId) ::
                        (cw.2.map (fun w => (w, k, s.nextId))) ++ s.delivered }
      else none
    | none => none
  | CAct.release i, s => some { s with refc := fupd s.refc i (s.refc i - 1) }
  | CAct.flushAll, s =>
    if s.pending.isEmpty && s.conns.all (fun q => s.refc q.2 == 0) then
      some { s with conns := [],
                    closedIds := s.conns.map (fun q => q.2) ++ s.closedIds }
    else none

/-- Run a sequence of cache steps; `none` when some step was not
enabled. -/
def runC : List CAct → CacheState → Option CacheState
  | [], s => some s
  | a :: as, s =>
    match cstep a s with
    | some s2 => runC as s2
    | none => none

/-- The per-key cache invariant for flush-free executions: either no
Transport was ever created for the key (nothing cached, nothing
delivered), or exactly one was, it is the cached one, no creation is in
flight, and every acquire for the key received it. -/
def InvK (s : CacheState) (k : Nat) : Prop :=
  (s.created k = 0 ∧ alook s.conns k = none ∧ ∀ e ∈ s.delivered, e.2.1 ≠ k)
  ∨ (∃ i, s.created k = 1 ∧ alook s.conns k = some i ∧ alook s.pending k = none ∧
      ∀ e ∈ s.delivered, e.2.1 = k → e.2.2 = i)

/-- Transport handle identities stay below the allocation counter. -/
def IdBound (s : CacheState) : Prop :=
  (∀ q ∈ s.conns, q.2 < s.nextId) ∧ (∀ e ∈ s.delivered, e.2.2 < s.nextId)
  ∧ (∀ i ∈ s.closedIds, i < s.nextId)

/-! ## Sequential cache policies, modelled from the spec (sections 4.1, 4.2) -/

/-- Modelled from the spec (section 4.1): the `acquire` of a single caller
as the cache performs it under the lock: return the cached Transport
for the key, or create, store and return a fresh one. -/
def acquireSeq (s : CacheState) (t k : Nat) : Nat × CacheState :=
  match alook s.conns k with
  | some i =>
    (i, { s with refc := fupd s.refc i (s.refc i + 1), delivered := (t, k, i) :: s.delivered })
  | none =>
    (s.nextId, { s with conns := (k, s.nextId) :: s.conns,
                        created := fupd s.created k (s.created k + 1),
                        refc := fupd s.refc s.nextId 1,
                        nextId := s.nextId + 1,
                        delivered := (t, k, s.nextId) :: s.delivered })

/-- Modelled from the spec (section 4.1): `release` decrements the
reference count and does not close the Transport. -/
def releaseSeq (s : CacheState) (i : Nat) : CacheState :=
  { s with refc := fupd s.refc i (s.refc i - 1) }

/-- One command executed through the `SSHConnectionCache` policy:
acquire a Transport for the key, execute the command (the result of a
command depends on the target host, modelled by the oracle `env`, not
on which Transport carries it), then release the Transport back to the
cache. -/
def execCached (s : CacheState) (t k : Nat) (env : String → Nat × String × String)
    (c : String) : (Nat × String × String) × CacheState :=
  let a := acquireSeq s t k
  (env c, releaseSeq a.2 a.1)

/-- Modelled from the spec (section 4.2): one command executed through
the `SSHNoConnectionCache` policy: a brand-new Transport (the current
fresh id `n`) is created, the command executes on it, and the Transport
is closed immediately on release; nothing is retained. -/
def execNoCache (n : Nat) (env : String → Nat × String × String) (c : String) :
    (Nat × String × String) × Nat :=
  (env c, n + 1)

/-! ## Concrete inputs used by the witnesses -/

/-- A flush-free concurrent scenario: thread 0 starts creating for key
5, thread 1 arrives while creation is in flight and waits, creation
finishes handing the Transport to both, thread 2 then acquires the
cached Transport, and one reference is released. -/
def wActs : List CAct :=
  [CAct.start 0 5, CAct.wait 1 5, CAct.finish 0 5, CAct.hit 2 5, CAct.release 0]

/-- The state reached by `wActs`. -/
def wState : CacheState := (runC wActs initCache).getD initCache

/-- Pre-flush scenario: create for key 1, then release the single
reference. -/
def fActs1 : List CAct := [CAct.start 0 1, CAct.finish 0 1, CAct.release 0]

/-- The state reached by `fActs1`. -/
def fState : CacheState := (runC fActs1 initCache).getD initCache

/-- The state right after `flush()`. -/
def fFlushed : CacheState := (cstep CAct.flushAll fState).getD initCache

/-- Post-flush scenario: acquire key 1 again. -/
def fActs2 : List CAct := [CAct.start 2 1, CAct.finish 2 1]

/-- The state reached after the post-flush acquire. -/
def fFinal : CacheState := (runC fActs2 fFlushed).getD initCache

/-- A fresh network with no bound ports and no handlers. -/
def w0 : NetWorld := { bound := [], handlers := 0, spawned := 0 }

/-- A bind oracle: ports 10000 and 10001 are busy, 10002 is free, and
everything above fails with a different errno. -/
def oracleW : Nat → Except Nat Nat := fun p =>
  if p < 10002 then Except.error EADDRINUSE
  else if p = 10002 then Except.ok 7
  else Except.error 13

/-- A bind oracle under which every port is busy. -/
def oracleBusy : Nat → Except Nat Nat := fun _ => Except.error EADDRINUSE

/-- A local host for the command-execution witnesses. -/
def locHost : Host := mkHost none "/tmp"

/-- The exact result triple of the failing grep of the `host.py`
doctest. -/
def grepOut : Nat × String × String :=
  (2, "", "grep: doesnt-exist: No such file or directory\n")

/-- A shell oracle realising the failing-grep doctest of `host.py`. -/
def grepEnv : String → Nat × String × String := fun q =>
  if q = get_cmd locHost "grep foobar doesnt-exist" then grepOut else (0, "", "")

/-- A shell oracle realising the `ls -d /etc` doctest of `host.py`. -/
def etcEnv : String → Nat × String × String := fun q =>
  if q = get_cmd locHost "ls -d /etc" then (0, "/etc\n", "") else (1, "", "")

/-- A remote host whose SFTP client has not been created yet. -/
def remHost : Host := mkHost (some "example") "/srv"

/-- An SFTP-client constructor that always succeeds, numbering clients
from 100. -/
def mkW : Nat → Option Nat := fun n => some (n + 100)

/-- The client returned by the first `_get_sftp` call on `remHost`. -/
def cliW : Nat :=
  match get_sftp mkW remHost with
  | Except.ok r => r.1
  | Except.error _ => 0

/-- The host state after the first `_get_sftp` call on `remHost`. -/
def remHost2 : Host :=
  match get_sftp mkW remHost with
  | Except.ok r => r.2
  | Except.error _ => remHost

/-! ## Helper lemmas -/

/-- Every port in the candidate range busy makes the scan raise the
last-seen busy error. -/
theorem scan_exhaust (oracle : Nat → Except Nat Nat) :
    ∀ (l : List Nat) (lastErr : Option Nat), l ≠ [] →
      (∀ q ∈ l, oracle q = Except.error EADDRINUSE) →
      scanPorts oracle l lastErr = Except.error (PyExc.sockErr EADDRINUSE) := by
  intro l
  induction l with
  | nil => intro lastErr hne _; exact absurd rfl hne
  | cons p ps ih =>
    intro lastErr _ hall
    have hp : oracle p = Except.error EADDRINUSE := hall p (List.mem_cons_self _ _)
    have hall2 : ∀ q ∈ ps, oracle q = Except.error EADDRINUSE :=
      fun q hq => hall q (List.mem_cons_of_mem _ hq)
    simp only [scanPorts, hp, ne_eq, not_true_eq_false, if_neg, ite_false]
    cases ps with
    | nil => simp [scanPorts]
    | cons q qs => exact ih (some EADDRINUSE) (by simp) hall2

/-! ## Claim theorems -/

/-- Claim C4: when binding a Server, an `EADDRINUSE` failure causes a
retry on the next port of the fixed contiguous 100-port candidate
range; a successful bind stops the scan; any bind error other than
`EADDRINUSE` propagates immediately; exhausting the whole range raises
the last-seen bind error. -/
theorem bind_retry_policy (oracle : Nat → Except Nat Nat) (base p srv e2 : Nat)
    (ps : List Nat) (lastErr : Option Nat) :
    (oracle p = Except.ok srv → scanPorts oracle (p :: ps) lastErr = Except.ok srv)
    ∧ (oracle p = Except.error e2 → e2 ≠ EADDRINUSE →
        scanPorts oracle (p :: ps) lastErr = Except.error (PyExc.sockErr e2))
    ∧ (oracle p = Except.error EADDRINUSE →
        scanPorts oracle (p :: ps) lastErr = scanPorts oracle ps (some EADDRINUSE))
    ∧ (find_free_server oracle base = scanPorts oracle (portRange base 100) none)
    ∧ ((∀ q ∈ portRange base 100, oracle q = Except.error EADDRINUSE) →
        find_free_server oracle base = Except.error (PyExc.sockErr EADDRINUSE)) := by
  refine ⟨?_, ?_, ?_, rfl, ?_⟩
  · intro hp; simp [scanPorts, hp]
  · intro hp hne; simp [scanPorts, hp, hne]
  · intro hp; simp [scanPorts, hp]
  · intro hall
    have hne : portRange base 100 ≠ [] := by
      intro hcon
      have : (portRange base 100).length = 100 := by simp [portRange]
      rw [hcon] at this
      simp at this
    exact scan_exhaust oracle (portRange base 100) none hne hall

/-- Witness for C4 at concrete oracles: a successful bind at the first
port is returned, a non-busy error propagates immediately, a busy error
advances to the rest of the range, and an entirely busy range raises
the busy error. -/
theorem bind_retry_policy_witness :
    scanPorts oracleW (10002 :: [10003]) none = Except.ok 7
    ∧ scanPorts oracleW (10003 :: [10004]) none = Except.error (PyExc.sockErr 13)
    ∧ scanPorts oracleW (10000 :: [10001, 10002]) none
        = scanPorts oracleW [10001, 10002] (some EADDRINUSE)
    ∧ find_free_server oracleBusy 10000 = Except.error (PyExc.sockErr EADDRINUSE) := by
  refine ⟨?_, ?_, ?_, ?_⟩
  · exact (bind_retry_policy oracleW 10000 10002 7 0 [10003] none).1 rfl
  · exact (bind_retry_policy oracleW 10000 10003 0 13 [10004] none).2.1 rfl (by decide)
  · exact (bind_retry_policy oracleW 10000 10000 0 0 [10001, 10002] none).2.2.1 rfl
  · exact (bind_retry_policy oracleBusy 10000 0 0 0 [] none).2.2.2.2 (fun q _ => rfl)

/-- Claim C6 (theorem at the failing input): both uses of the
wait-for-port-open guard in `_test_server_close` omit the required
`timeout` argument, so the call raises a `TypeError` before any polling
happens, whatever the network does. -/
theorem wait_call_missing_timeout (connects : Nat → Bool) :
    call_wait_port_open connects serverCloseWaitArg = Except.error PyExc.typeErr := rfl

/-- Claim C7: a command that runs but exits non-zero is reported as a
result-carrying failure: `Host.run_status_stderr` returns the exit code
with the captured stdout and stderr without raising, whereas `Host.run`
raises `CalledProcessError` on the same command. -/
theorem run_nonzero_exit_reporting (env : String → Nat × String × String) (h : Host)
    (c : String) (st : Nat) (o e2 : String)
    (hev : env (get_cmd h c) = (st, o, e2)) (hst : st ≠ 0) :
    run_status_stderr env h c = (st, o, e2)
    ∧ run_command env h c = Except.error (PyExc.calledProcessError st) := by
  constructor
  · simp [run_status_stderr, hev]
  · simp [run_command, run_status_stderr, hev, hst]

/-- Witness for C7: grep on a missing file yields exit code 2, empty
stdout and a stderr carrying the No-such-file message, reported by
`run_status_stderr` as a plain triple while `run` raises. -/
theorem run_nonzero_exit_reporting_witness :
    grepEnv (get_cmd locHost "grep foobar doesnt-exist")
      = (2, "", "grep: doesnt-exist: No such file or directory\n")
    ∧ (2 : Nat) ≠ 0
    ∧ run_status_stderr grepEnv locHost "grep foobar doesnt-exist"
      = (2, "", "grep: doesnt-exist: No such file or directory\n")
    ∧ run_command grepEnv locHost "grep foobar doesnt-exist"
      = Except.error (PyExc.calledProcessError 2) := by
  have hev : grepEnv (get_cmd locHost "grep foobar doesnt-exist")
      = (2, "", "grep: doesnt-exist: No such file or directory\n") := by
    simp [grepEnv, grepOut]
  have hth := run_nonzero_exit_reporting grepEnv locHost "grep foobar doesnt-exist"
    2 "" "grep: doesnt-exist: No such file or directory\n" hev (by decide)
  exact ⟨hev, by decide, hth.1, hth.2⟩

/-- Claim C8: running `ls -d /etc` through the Host wrapper returns
exit code 0, stdout exactly the `/etc` line with its trailing newline,
and empty stderr; `run` returns that stdout. -/
theorem run_ls_etc (env : String → Nat × String × String) (h : Host)
    (hev : env (get_cmd h "ls -d /etc") = (0, "/etc\n", "")) :
    run_status_stderr env h "ls -d /etc" = (0, "/etc\n", "")
    ∧ run_command env h "ls -d /etc" = Except.ok "/etc\n" := by
  constructor
  · simp [run_status_stderr, hev]
  · simp [run_command, run_status_stderr, hev]

/-- Witness for C8 at the concrete working-host oracle. -/
theorem run_ls_etc_witness :
    etcEnv (get_cmd locHost "ls -d /etc") = (0, "/etc\n", "")
    ∧ run_status_stderr etcEnv locHost "ls -d /etc" = (0, "/etc\n", "")
    ∧ run_command etcEnv locHost "ls -d /etc" = Except.ok "/etc\n" := by
  have hev : etcEnv (get_cmd locHost "ls -d /etc") = (0, "/etc\n", "") := by
    simp [etcEnv]
  have hth := run_ls_etc etcEnv locHost hev
  exact ⟨hev, hth.1, hth.2⟩

/-- Claim C9: on a Host constructed with `server=None`, `copy_to` is a
silent no-op: it transfers nothing, raises no error, and leaves the
host unchanged, because the SFTP path is taken only when a remote
session class exists. -/
theorem local_copy_to_noop (mk : Nat → Option Nat) (cwd lf rf : String) :
    copy_to mk (mkHost none cwd) lf rf = Except.ok (mkHost none cwd, []) := rfl

/-- Claim C10: `Host._get_sftp` is idempotent after its first call: on
a Host with no cached client, the call opens exactly one SFTP subsystem
session and stores the resulting client, and calling it again returns
that same cached client with no further session opened and no state
change. -/
theorem get_sftp_idempotent (mk : Nat → Option Nat) (h : Host) (c : Nat) (h2 : Host)
    (h0 : h.sftp = none) (hcall : get_sftp mk h = Except.ok (c, h2)) :
    h2.opens = h.opens + 1 ∧ h2.sftp = some c ∧ h2.sftpSession = some h.opens
    ∧ get_sftp mk h2 = Except.ok (c, h2) := by
  unfold get_sftp at hcall
  rw [h0] at hcall
  cases hmk : mk h.opens with
  | none =>
    rw [hmk] at hcall
    exact absurd hcall (by simp)
  | some cl =>
    rw [hmk] at hcall
    simp only [Except.ok.injEq, Prod.mk.injEq] at hcall
    obtain ⟨rfl, rfl⟩ := hcall
    exact ⟨rfl, rfl, rfl, rfl⟩

/-- Witness for C10: on the concrete remote host with no cached client,
the first call opens one session and a repeated call is the
identity. -/
theorem get_sftp_idempotent_witness :
    remHost2.opens = remHost.opens + 1 ∧ remHost2.sftp = some cliW
    ∧ remHost2.sftpSession = some remHost.opens
    ∧ get_sftp mkW remHost2 = Except.ok (cliW, remHost2) :=
  get_sftp_idempotent mkW remHost cliW remHost2 rfl rfl

/-- Claim C3: starting from a network state where the port is free,
each bind → serve → connect → close → join cycle binds successfully,
and after `join()` returns the port is released (the bound-port set is
restored) and no handler task is leaked, so the cycle repeats any
number of times; only the cumulative spawn count grows. -/
theorem server_rebind_cycle (w : NetWorld) (p : Nat) (n : Nat) (hfree : p ∉ w.bound) :
    iterCycle w p n = some { bound := w.bound, handlers := w.handlers,
                             spawned := w.spawned + n } := by
  induction n generalizing w with
  | zero => simp [iterCycle]
  | succ n ih =>
    have hc : serveCycle w p
        = some { bound := w.bound, handlers := w.handlers, spawned := w.spawned + 1 } := by
      simp [serveCycle, bindSrv, hfree, acceptConn, handlerDone, closeSrv, joinSrv]
    have hrest := ih { bound := w.bound, handlers := w.handlers, spawned := w.spawned + 1 } hfree
    simp only [iterCycle, hc, Option.some_bind]
    rw [hrest]
    simp only [Option.some.injEq, NetWorld.mk.injEq, true_and]
    omega

/-- Witness for C3: ten immediate bind-serve-close-join iterations on
port 10000 of a fresh network all succeed, leaving the port unbound and
no handlers. -/
theorem server_rebind_cycle_witness :
    (10000 : Nat) ∉ w0.bound
    ∧ iterCycle w0 10000 10 = some { bound := [], handlers := 0, spawned := 10 } := by
  have hth := server_rebind_cycle w0 10000 10 (by decide)
  exact ⟨by decide, hth⟩

/-- Claim C5: for every command, one execution through the Cache policy
and one through the No-Cache policy produce the same externally
observable result (exit code, stdout, stderr); the policies differ only
in connection reuse — the Cache policy retains a Transport for the key
afterwards while the No-Cache policy retains nothing. -/
theorem policy_observable_equiv (s : CacheState) (t k n : Nat)
    (env : String → Nat × String × String) (c : String) :
    (execCached s t k env c).1 = (execNoCache n env c).1
    ∧ (∃ i, alook (execCached s t k env c).2.conns k = some i) := by
  constructor
  · rfl
  · unfold execCached acquireSeq releaseSeq
    cases hc : alook s.conns k with
    | some i => exact ⟨i, by simp [hc]⟩
    | none => exact ⟨s.nextId, by simp [hc, alook]⟩

/-! ## Cache-machine helper lemmas -/

theorem fupd_ne (f : Nat → Nat) (i v j : Nat) (h : j ≠ i) : fupd f i v j = f j := by
  simp [fupd, h]

theorem alook_cons_ne {α : Type} (l : List (Nat × α)) (k k0 : Nat) (v : α) (h : k ≠ k0) :
    alook ((k0, v) :: l) k = alook l k := by
  simp [alook, h]

theorem alook_adel_self {α : Type} (l : List (Nat × α)) (k : Nat) :
    alook (adel l k) k = none := by
  induction l with
  | nil => rfl
  | cons p l ih =>
    obtain ⟨a, b⟩ := p
    simp only [adel]
    by_cases hak : a = k
    · rw [if_pos hak]; exact ih
    · rw [if_neg hak]
      rw [alook_cons_ne _ _ _ _ (fun h2 => hak h2.symm)]
      exact ih

theorem alook_adel_ne {α : Type} (l : List (Nat × α)) (k k0 : Nat) (h : k ≠ k0) :
    alook (adel l k0) k = alook l k := by
  induction l with
  | nil => rfl
  | cons p l ih =>
    obtain ⟨a, b⟩ := p
    simp only [adel]
    by_cases hak : a = k0
    · rw [if_pos hak]
      rw [alook_cons_ne _ _ _ _ (fun h2 => h (h2.trans hak))]
      exact ih
    · rw [if_neg hak]
      by_cases hka : k = a
      · subst hka; simp [alook]
      · rw [alook_cons_ne _ _ _ _ hka, alook_cons_ne _ _ _ _ hka]
        exact ih

theorem alook_mem {α : Type} :
    ∀ (l : List (Nat × α)) (k : Nat) (v : α), alook l k = some v → (k, v) ∈ l := by
  intro l
  induction l with
  | nil => intro k v h; exact Option.noConfusion h
  | cons p l ih =>
    intro k v h
    obtain ⟨a, b⟩ := p
    by_cases hk : k = a
    · subst hk
      simp [alook] at h
      subst h
      exact List.mem_cons_self _ _
    · rw [alook_cons_ne _ _ _ _ hk] at h
      exact List.mem_cons_of_mem _ (ih k v h)

/-- One enabled non-flush step preserves the per-key invariant. -/
theorem invk_step (a : CAct) (s s2 : CacheState) (k : Nat)
    (hna : a ≠ CAct.flushAll) (hst : cstep a s = some s2) (hin : InvK s k) : InvK s2 k := by
  cases a with
  | hit t k0 =>
    simp only [cstep] at hst
    cases hc : alook s.conns k0 with
    | none => rw [hc] at hst; exact Option.noConfusion hst
    | some i0 =>
      rw [hc] at hst
      obtain rfl := Option.some.inj hst
      rcases hin with ⟨h1, h2, h3⟩ | ⟨i, h1, h2, h3, h4⟩
      · left
        refine ⟨h1, h2, ?_⟩
        intro e he
        rcases List.mem_cons.mp he with rfl | he2
        · intro hk
          replace hk : k0 = k := hk
          subst hk
          rw [h2] at hc
          exact Option.noConfusion hc
        · exact h3 e he2
      · right
        refine ⟨i, h1, h2, h3, ?_⟩
        intro e he hk
        rcases List.mem_cons.mp he with rfl | he2
        · replace hk : k0 = k := hk
          subst hk
          rw [h2] at hc
          exact (Option.some.inj hc).symm
        · exact h4 e he2 hk
  | start t k0 =>
    simp only [cstep] at hst
    cases hc : alook s.conns k0 with
    | some i0 => rw [hc] at hst; exact Option.noConfusion hst
    | none =>
      cases hp : alook s.pending k0 with
      | some pw => rw [hc, hp] at hst; exact Option.noConfusion hst
      | none =>
        rw [hc, hp] at hst
        obtain rfl := Option.some.inj hst
        rcases hin with ⟨h1, h2, h3⟩ | ⟨i, h1, h2, h3, h4⟩
        · exact Or.inl ⟨h1, h2, h3⟩
        · right
          refine ⟨i, h1, h2, ?_, h4⟩
          have hkk : k ≠ k0 := by
            intro hkk; subst hkk; rw [h2] at hc; exact Option.noConfusion hc
          rw [alook_cons_ne _ _ _ _ hkk]
          exact h3
  | wait t k0 =>
    simp only [cstep] at hst
    cases hp : alook s.pending k0 with
    | none => rw [hp] at hst; exact Option.noConfusion hst
    | some cw =>
      rw [hp] at hst
      obtain rfl := Option.some.inj hst
      rcases hin with ⟨h1, h2, h3⟩ | ⟨i, h1, h2, h3, h4⟩
      · exact Or.inl ⟨h1, h2, h3⟩
      · right
        refine ⟨i, h1, h2, ?_, h4⟩
        have hkk : k ≠ k0 := by
          intro hkk; subst hkk; rw [h3] at hp; exact Option.noConfusion hp
        rw [alook_cons_ne _ _ _ _ hkk, alook_adel_ne _ _ _ hkk]
        exact h3
  | finish t k0 =>
    simp only [cstep] at hst
    split at hst
    case _ cw hp =>
      split at hst
      case isTrue hct =>
        obtain rfl := Option.some.inj hst
        by_cases hk0 : k0 = k
        · subst hk0
          rcases hin with ⟨h1, h2, h3⟩ | ⟨i, h1, h2, h3, h4⟩
          · right
            refine ⟨s.nextId, ?_, ?_, ?_, ?_⟩
            · simp [fupd, h1]
            · simp [alook]
            · exact alook_adel_self s.pending k0
            · intro e he hk
              rcases List.mem_cons.mp he with rfl | he2
              · rfl
              · rcases List.mem_append.mp he2 with hm | ho
                · obtain ⟨w, _, rfl⟩ := List.mem_map.mp hm
                  rfl
                · exact absurd hk (h3 e ho)
          · rw [h3] at hp
            exact Option.noConfusion hp
        · have hkk : k ≠ k0 := fun h => hk0 h.symm
          rcases hin with ⟨h1, h2, h3⟩ | ⟨i, h1, h2, h3, h4⟩
          · left
            refine ⟨?_, ?_, ?_⟩
            · show fupd s.created k0 (s.created k0 + 1) k = 0
              rw [fupd_ne _ _ _ _ hkk]; exact h1
            · show alook ((k0, s.nextId) :: s.conns) k = none
              rw [alook_cons_ne _ _ _ _ hkk]; exact h2
            · intro e he
              rcases List.mem_cons.mp he with rfl | he2
              · exact hk0
              · rcases List.mem_append.mp he2 with hm | ho
                · obtain ⟨w, _, rfl⟩ := List.mem_map.mp hm
                  exact hk0
                · exact h3 e ho
          · right
            refine ⟨i, ?_, ?_, ?_, ?_⟩
            · show fupd s.created k0 (s.created k0 + 1) k = 1
              rw [fupd_ne _ _ _ _ hkk]; exact h1
            · show alook ((k0, s.nextId) :: s.conns) k = some i
              rw [alook_cons_ne _ _ _ _ hkk]; exact h2
            · show alook (adel s.pending k0) k = none
              rw [alook_adel_ne _ _ _ hkk]; exact h3
            · intro e he hk
              rcases List.mem_cons.mp he with rfl | he2
              · exact absurd hk hk0
              · rcases List.mem_append.mp he2 with hm | ho
                · obtain ⟨w, _, rfl⟩ := List.mem_map.mp hm
                  exact absurd hk hk0
                · exact h4 e ho hk
      case isFalse hct => exact Option.noConfusion hst
    case _ hp => exact Option.noConfusion hst
  | release i0 =>
    simp only [cstep] at hst
    obtain rfl := Option.some.inj hst
    exact hin
  | flushAll => exact absurd rfl hna

/-- The per-key invariant holds along every enabled flush-free
execution. -/
theorem invk_run : ∀ (acts : List CAct) (s s2 : CacheState) (k : Nat),
    CAct.flushAll ∉ acts → runC acts s = some s2 → InvK s k → InvK s2 k := by
  intro acts
  induction acts with
  | nil =>
    intro s s2 k _ hrun hin
    simp only [runC] at hrun
    obtain rfl := Option.some.inj hrun
    exact hin
  | cons a as ih =>
    intro s s2 k hnf hrun hin
    simp only [runC] at hrun
    cases hc : cstep a s with
    | none => rw [hc] at hrun; exact Option.noConfusion hrun
    | some smid =>
      rw [hc] at hrun
      have hna : a ≠ CAct.flushAll := fun h => hnf (by rw [h]; exact List.mem_cons_self _ _)
      have has : CAct.flushAll ∉ as := fun h => hnf (List.mem_cons_of_mem _ h)
      exact ih smid s2 k has hrun (invk_step a s smid k hna hc hin)

/-- The per-key invariant of the empty cache. -/
theorem invk_init (k : Nat) : InvK initCache k :=
  Or.inl ⟨rfl, rfl, by simp [initCache]⟩

/-- Claim C1: in every interleaved execution of concurrent
`acquire`/`release` steps with no flush, at most one Transport is ever
created per ConnectionKey, every caller whose acquire for the key
completed received the same Transport (a caller arriving while creation
is in flight waits and gets the created one, not a duplicate), and if
any acquire for the key completed then exactly one Transport was
created for it. -/
theorem acquire_once_per_key (acts : List CAct) (s : CacheState) (k : Nat)
    (hnf : CAct.flushAll ∉ acts) (hrun : runC acts initCache = some s) :
    s.created k ≤ 1
    ∧ (∀ e1 ∈ s.delivered, ∀ e2 ∈ s.delivered,
        e1.2.1 = k → e2.2.1 = k → e1.2.2 = e2.2.2)
    ∧ ((∃ e ∈ s.delivered, e.2.1 = k) → s.created k = 1) := by
  have hin := invk_run acts initCache s k hnf hrun (invk_init k)
  rcases hin with ⟨h1, h2, h3⟩ | ⟨i, h1, h2, h3, h4⟩
  · refine ⟨by simp [h1], ?_, ?_⟩
    · intro e1 he1 _ _ hk1 _
      exact absurd hk1 (h3 e1 he1)
    · rintro ⟨e, he, hk⟩
      exact absurd hk (h3 e he)
  · refine ⟨le_of_eq h1, ?_, fun _ => h1⟩
    intro e1 he1 e2 he2 hk1 hk2
    rw [h4 e1 he1 hk1, h4 e2 he2 hk2]

/-- Witness for C1 on a concrete interleaving: a creation raced by a
waiter, a later cache hit and a release yield exactly one created
Transport for key 5, with every delivery agreeing on it. -/
theorem acquire_once_per_key_witness :
    CAct.flushAll ∉ wActs
    ∧ wState.created 5 = 1
    ∧ ∀ e1 ∈ wState.delivered, ∀ e2 ∈ wState.delivered,
        e1.2.1 = 5 → e2.2.1 = 5 → e1.2.2 = e2.2.2 := by
  have hth := acquire_once_per_key wActs wState 5 (by decide) rfl
  exact ⟨by decide, hth.2.2 ⟨(0, 5, 0), by decide, rfl⟩, hth.2.1⟩

/-- The empty cache satisfies the id bound. -/
theorem idbound_init : IdBound initCache :=
  ⟨by simp [initCache], by simp [initCache], by simp [initCache]⟩

/-- Every enabled step preserves the id bound. -/
theorem idbound_step (a : CAct) (s s2 : CacheState) (hst : cstep a s = some s2)
    (hb : IdBound s) : IdBound s2 := by
  obtain ⟨hb1, hb2, hb3⟩ := hb
  cases a with
  | hit t k0 =>
    simp only [cstep] at hst
    cases hc : alook s.conns k0 with
    | none => rw [hc] at hst; exact Option.noConfusion hst
    | some i0 =>
      rw [hc] at hst
      obtain rfl := Option.some.inj hst
      refine ⟨hb1, ?_, hb3⟩
      intro e he
      rcases List.mem_cons.mp he with rfl | he2
      · exact hb1 (k0, i0) (alook_mem _ _ _ hc)
      · exact hb2 e he2
  | start t k0 =>
    simp only [cstep] at hst
    cases hc : alook s.conns k0 with
    | some i0 => rw [hc] at hst; exact Option.noConfusion hst
    | none =>
      cases hp : alook s.pending k0 with
      | some pw => rw [hc, hp] at hst; exact Option.noConfusion hst
      | none =>
        rw [hc, hp] at hst
        obtain rfl := Option.some.inj hst
        exact ⟨hb1, hb2, hb3⟩
  | wait t k0 =>
    simp only [cstep] at hst
    cases hp : alook s.pending k0 with
    | none => rw [hp] at hst; exact Option.noConfusion hst
    | some cw =>
      rw [hp] at hst
      obtain rfl := Option.some.inj hst
      exact ⟨hb1, hb2, hb3⟩
  | finish t k0 =>
    simp only [cstep] at hst
    split at hst
    case _ cw hp =>
      split at hst
      case isTrue hct =>
        obtain rfl := Option.some.inj hst
        refine ⟨?_, ?_, ?_⟩
        · intro q hq
          rcases List.mem_cons.mp hq with rfl | hq2
          · exact Nat.lt_succ_self _
          · exact Nat.lt_succ_of_lt (hb1 q hq2)
        · intro e he
          rcases List.mem_cons.mp he with rfl | he2
          · exact Nat.lt_succ_self _
          · rcases List.mem_append.mp he2 with hm | ho
            · obtain ⟨w, _, rfl⟩ := List.mem_map.mp hm
              exact Nat.lt_succ_self _
            · exact Nat.lt_succ_of_lt (hb2 e ho)
        · intro i2 hi2
          exact Nat.lt_succ_of_lt (hb3 i2 hi2)
      case isFalse hct => exact Option.noConfusion hst
    case _ hp => exact Option.noConfusion hst
  | release i0 =>
    simp only [cstep] at hst
    obtain rfl := Option.some.inj hst
    exact ⟨hb1, hb2, hb3⟩
  | flushAll =>
    simp only [cstep] at hst
    split at hst
    · obtain rfl := Option.some.inj hst
      refine ⟨?_, hb2, ?_⟩
      · intro q hq
        exact absurd hq (List.not_mem_nil q)
      · intro i2 hi2
        rcases List.mem_append.mp hi2 with hm | ho
        · obtain ⟨q, hq, rfl⟩ := List.mem_map.mp hm
          exact hb1 q hq
        · exact hb3 i2 ho
    · exact Option.noConfusion hst

/-- The id bound holds along every enabled execution. -/
theorem idbound_run : ∀ (acts : List CAct) (s s2 : CacheState),
    runC acts s = some s2 → IdBound s → IdBound s2 := by
  intro acts
  induction acts with
  | nil =>
    intro s s2 hrun hb
    simp only [runC] at hrun
    obtain rfl := Option.some.inj hrun
    exact hb
  | cons a as ih =>
    intro s s2 hrun hb
    simp only [runC] at hrun
    cases hc : cstep a s with
    | none => rw [hc] at hrun; exact Option.noConfusion hrun
    | some smid =>
      rw [hc] at hrun
      exact ih smid s2 hrun (idbound_step a s smid hc hb)

/-- One enabled step keeps the allocation counter and the cached
Transport ids at or above any bound they already satisfy, and any
delivery it adds carries an id at or above that bound. -/
theorem above_step (a : CAct) (s s2 : CacheState) (B : Nat) (hst : cstep a s = some s2)
    (hn : B ≤ s.nextId) (hcn : ∀ q ∈ s.conns, B ≤ q.2) :
    B ≤ s2.nextId ∧ (∀ q ∈ s2.conns, B ≤ q.2)
    ∧ (∀ e ∈ s2.delivered, e ∈ s.delivered ∨ B ≤ e.2.2) := by
  cases a with
  | hit t k0 =>
    simp only [cstep] at hst
    cases hc : alook s.conns k0 with
    | none => rw [hc] at hst; exact Option.noConfusion hst
    | some i0 =>
      rw [hc] at hst
      obtain rfl := Option.some.inj hst
      refine ⟨hn, hcn, ?_⟩
      intro e he
      rcases List.mem_cons.mp he with rfl | he2
      · exact Or.inr (hcn (k0, i0) (alook_mem _ _ _ hc))
      · exact Or.inl he2
  | start t k0 =>
    simp only [cstep] at hst
    cases hc : alook s.conns k0 with
    | some i0 => rw [hc] at hst; exact Option.noConfusion hst
    | none =>
      cases hp : alook s.pending k0 with
      | some pw => rw [hc, hp] at hst; exact Option.noConfusion hst
      | none =>
        rw [hc, hp] at hst
        obtain rfl := Option.some.inj hst
        exact ⟨hn, hcn, fun e he => Or.inl he⟩
  | wait t k0 =>
    simp only [cstep] at hst
    cases hp : alook s.pending k0 with
    | none => rw [hp] at hst; exact Option.noConfusion hst
    | some cw =>
      rw [hp] at hst
      obtain rfl := Option.some.inj hst
      exact ⟨hn, hcn, fun e he => Or.inl he⟩
  | finish t k0 =>
    simp only [cstep] at hst
    split at hst
    case _ cw hp =>
      split at hst
      case isTrue hct =>
        obtain rfl := Option.some.inj hst
        refine ⟨Nat.le_succ_of_le hn, ?_, ?_⟩
        · intro q hq
          rcases List.mem_cons.mp hq with rfl | hq2
          · exact hn
          · exact hcn q hq2
        · intro e he
          rcases List.mem_cons.mp he with rfl | he2
          · exact Or.inr hn
          · rcases List.mem_append.mp he2 with hm | ho
            · obtain ⟨w, _, rfl⟩ := List.mem_map.mp hm
              exact Or.inr hn
            · exact Or.inl ho
      case isFalse hct => exact Option.noConfusion hst
    case _ hp => exact Option.noConfusion hst
  | release i0 =>
    simp only [cstep] at hst
    obtain rfl := Option.some.inj hst
    exact ⟨hn, hcn, fun e he => Or.inl he⟩
  | flushAll =>
    simp only [cstep] at hst
    split at hst
    · obtain rfl := Option.some.inj hst
      refine ⟨hn, ?_, fun e he => Or.inl he⟩
      intro q hq
      exact absurd hq (List.not_mem_nil q)
    · exact Option.noConfusion hst

/-- Along any enabled execution, the allocation counter and cached ids
stay at or above a bound they start at, and any delivery not present at
the start carries an id at or above that bound. -/
theorem above_run : ∀ (acts : List CAct) (s s2 : CacheState) (B : Nat),
    runC acts s = some s2 → B ≤ s.nextId → (∀ q ∈ s.conns, B ≤ q.2) →
    B ≤ s2.nextId ∧ (∀ q ∈ s2.conns, B ≤ q.2)
    ∧ (∀ e ∈ s2.delivered, e ∈ s.delivered ∨ B ≤ e.2.2) := by
  intro acts
  induction acts with
  | nil =>
    intro s s2 B hrun hn hcn
    simp only [runC] at hrun
    obtain rfl := Option.some.inj hrun
    exact ⟨hn, hcn, fun e he => Or.inl he⟩
  | cons a as ih =>
    intro s s2 B hrun hn hcn
    simp only [runC] at hrun
    cases hc : cstep a s with
    | none => rw [hc] at hrun; exact Option.noConfusion hrun
    | some smid =>
      rw [hc] at hrun
      obtain ⟨hn2, hcn2, hd2⟩ := above_step a s smid B hc hn hcn
      obtain ⟨hn3, hcn3, hd3⟩ := ih smid s2 B hrun hn2 hcn2
      refine ⟨hn3, hcn3, ?_⟩
      intro e he
      rcases hd3 e he with hmid | hb
      · exact hd2 e hmid
      · exact Or.inr hb

/-- What `flush()` does to the state: it empties the key-to-Transport
mapping, moves every cached Transport id to the closed list, and leaves
the allocation counter and the delivery log unchanged. -/
theorem flush_inv (s s1 : CacheState) (hf : cstep CAct.flushAll s = some s1) :
    s1.conns = [] ∧ s1.nextId = s.nextId ∧ s1.delivered = s.delivered
    ∧ s1.closedIds = s.conns.map (fun q => q.2) ++ s.closedIds := by
  simp only [cstep] at hf
  split at hf
  · obtain rfl := Option.some.inj hf
    exact ⟨rfl, rfl, rfl, rfl⟩
  · exact Option.noConfusion hf

/-- Claim C2: after `flush()` the cache retains no Transports, and
every acquire completed after the flush receives a Transport whose
provider-assigned handle identity is not among the handles the flush
closed and differs from every handle delivered before the flush — a
freshly created Transport, never a handle to a previously closed
one. -/
theorem flush_then_fresh (acts1 acts2 : List CAct) (s s1 s2 : CacheState)
    (h1 : runC acts1 initCache = some s)
    (hf : cstep CAct.flushAll s = some s1)
    (h2 : runC acts2 s1 = some s2) :
    s1.conns = []
    ∧ ∀ e ∈ s2.delivered, e ∉ s1.delivered →
        e.2.2 ∉ s1.closedIds ∧ ∀ e3 ∈ s1.delivered, e.2.2 ≠ e3.2.2 := by
  have hb : IdBound s := idbound_run acts1 initCache s h1 idbound_init
  have hb1 : IdBound s1 := idbound_step CAct.flushAll s s1 hf hb
  obtain ⟨hc0, hn0, _, _⟩ := flush_inv s s1 hf
  refine ⟨hc0, ?_⟩
  intro e he hnot
  have habove := above_run acts2 s1 s2 s1.nextId h2 (le_refl _) (by rw [hc0]; simp)
  rcases habove.2.2 e he with hmid | hge
  · exact absurd hmid hnot
  · constructor
    · intro hcl
      have hlt := hb1.2.2 e.2.2 hcl
      omega
    · intro e3 he3 heq
      have hlt := hb1.2.1 e3 he3
      omega

/-- Witness for C2 on a concrete run: create for key 1, release, flush
(cache becomes empty, handle 0 closed), then acquire key 1 again — the
new delivery carries handle 1, which is neither the closed handle nor
any pre-flush handle. -/
theorem flush_then_fresh_witness :
    fFlushed.conns = []
    ∧ ((2, 1, 1) : Nat × Nat × Nat).2.2 ∉ fFlushed.closedIds
    ∧ ∀ e3 ∈ fFlushed.delivered, ((2, 1, 1) : Nat × Nat × Nat).2.2 ≠ e3.2.2 := by
  have hth := flush_then_fresh fActs1 fActs2 fState fFlushed fFinal rfl rfl rfl
  have hm := hth.2 (2, 1, 1) (by decide) (by decide)
  exact ⟨hth.1, hm.1, hm.2⟩
